import Mathlib

/-!
Shallow embedding of `src/cassette/coco_tape.c` (a TRS-80 Color Computer
cassette decoder) and proofs about its three decode stages: the cycle
classifier / bit assembler in `main`, the block state machine `process_bit`,
and the program reconstructor `print_prog` / `asciidump`.

Machine bytes (`uint8_t` in the source) are modelled as `Nat` with `% 256`
at every write that can overflow.  Fallible paths (`return 1` followed by
`exit(1)` in `main`, and the `exit(1)` calls inside `print_prog`) are
modelled with `Option` / `Except`.  `malloc` is modelled as always
succeeding; `printf` output that does not feed back into control flow is
dropped.
-/

set_option maxRecDepth 10000

/-- `enum block_state` from the source (same constructors, same order). -/
inductive BState where
  | needLeadbyte
  | needSyncbyte
  | needBlocktype
  | needLength
  | needData
  | needName
  | needFiletype
  | needAsciiflag
  | needGapflag
  | needStartaddr
  | needLoadaddr
  | needCksum
  | done
deriving DecidableEq, Repr

/-- `struct block`.  `b_next` is represented by list order in the chain.
`b_type`, `b_filetype`, `b_asciiflag`, `b_gapflag` are kept as the numeric
byte values the C code assigns into the enum fields.  `b_data` is `none`
until the `malloc` in the `BS_NEED_LENGTH` case runs. -/
structure Block where
  b_state : BState
  b_type : Nat
  b_length : Nat
  b_cksum : Nat
  b_data : Option (List Nat)
  b_progname : List Nat
  b_filetype : Nat
  b_asciiflag : Nat
  b_gapflag : Nat
  b_mlstart : List Nat
  b_mlload : List Nat
  b_byte : Nat
  b_nbit : Nat
  b_data_i : Nat
  b_progname_i : Nat
  b_mlstart_i : Nat
  b_mlload_i : Nat
deriving DecidableEq, Repr

/-- A freshly allocated block: `memset(cb, 0, sizeof(struct block))` followed
by `cb->b_state = BS_NEED_SYNCBYTE`.  The `char b_progname[9]` and the two
2-byte address arrays are zero-filled. -/
def freshBlock : Block :=
  { b_state := .needSyncbyte
    b_type := 0
    b_length := 0
    b_cksum := 0
    b_data := none
    b_progname := List.replicate 9 0
    b_filetype := 0
    b_asciiflag := 0
    b_gapflag := 0
    b_mlstart := [0, 0]
    b_mlload := [0, 0]
    b_byte := 0
    b_nbit := 0
    b_data_i := 0
    b_progname_i := 0
    b_mlstart_i := 0
    b_mlload_i := 0 }

/-- `process_bit` from the source, one `match` arm per `switch` case.
`none` models `return 1` (which `main` turns into `exit(1)`).  Each byte
field is written modulo 256 exactly where the C `uint8_t` arithmetic can
wrap. -/
def process_bit (cb : Block) : Option Block :=
  match cb.b_state with
  | .needSyncbyte =>
      if cb.b_byte = 0x3C then
        some { cb with b_byte := 0, b_nbit := 1, b_state := .needBlocktype }
      else
        some cb
  | .needBlocktype =>
      let cb2 :=
        if cb.b_nbit = 8 then
          if cb.b_byte = 0x00 ∨ cb.b_byte = 0x01 ∨ cb.b_byte = 0xFF then
            { cb with b_type := cb.b_byte, b_cksum := cb.b_byte,
                      b_byte := 0, b_nbit := 0, b_state := .needLength }
          else
            { cb with b_byte := 0, b_nbit := 0, b_state := .needSyncbyte }
        else cb
      some { cb2 with b_nbit := (cb2.b_nbit + 1) % 256 }
  | .needLength =>
      let cb2 :=
        if cb.b_nbit = 8 then
          let cb3 := { cb with b_length := cb.b_byte,
                               b_cksum := (cb.b_cksum + cb.b_byte) % 256,
                               b_byte := 0, b_nbit := 0 }
          if cb3.b_type = 0x00 then
            if cb3.b_length ≠ 15 then
              { cb3 with b_byte := 0, b_nbit := 0, b_state := .needSyncbyte }
            else
              { cb3 with b_state := .needName }
          else if cb3.b_type = 0xFF then
            if cb3.b_length ≠ 0 then
              { cb3 with b_byte := 0, b_nbit := 0, b_state := .needSyncbyte }
            else
              { cb3 with b_state := .needCksum }
          else
            { cb3 with b_state := .needData,
                       b_data := some (List.replicate (cb3.b_length + 1) 0) }
        else cb
      some { cb2 with b_nbit := (cb2.b_nbit + 1) % 256 }
  | .needName =>
      let cb2 :=
        if cb.b_nbit = 8 then
          let cb3 := { cb with
            b_progname := cb.b_progname.set cb.b_progname_i cb.b_byte,
            b_cksum := (cb.b_cksum + cb.b_byte) % 256,
            b_progname_i := (cb.b_progname_i + 1) % 256 }
          let cb4 :=
            if cb3.b_progname_i = 8 then { cb3 with b_state := .needFiletype }
            else cb3
          { cb4 with b_byte := 0, b_nbit := 0 }
        else cb
      some { cb2 with b_nbit := (cb2.b_nbit + 1) % 256 }
  | .needFiletype =>
      let cb2 :=
        if cb.b_nbit = 8 then
          { cb with b_filetype := cb.b_byte,
                    b_cksum := (cb.b_cksum + cb.b_byte) % 256,
                    b_state := .needAsciiflag, b_byte := 0, b_nbit := 0 }
        else cb
      some { cb2 with b_nbit := (cb2.b_nbit + 1) % 256 }
  | .needAsciiflag =>
      let cb2 :=
        if cb.b_nbit = 8 then
          { cb with b_asciiflag := cb.b_byte,
                    b_cksum := (cb.b_cksum + cb.b_byte) % 256,
                    b_state := .needGapflag, b_byte := 0, b_nbit := 0 }
        else cb
      some { cb2 with b_nbit := (cb2.b_nbit + 1) % 256 }
  | .needGapflag =>
      let cb2 :=
        if cb.b_nbit = 8 then
          { cb with b_gapflag := cb.b_byte,
                    b_cksum := (cb.b_cksum + cb.b_byte) % 256,
                    b_state := .needStartaddr, b_byte := 0, b_nbit := 0 }
        else cb
      some { cb2 with b_nbit := (cb2.b_nbit + 1) % 256 }
  | .needStartaddr =>
      let cb2 :=
        if cb.b_nbit = 8 then
          let cb3 := { cb with
            b_mlstart := cb.b_mlstart.set cb.b_mlstart_i cb.b_byte,
            b_cksum := (cb.b_cksum + cb.b_byte) % 256,
            b_mlstart_i := (cb.b_mlstart_i + 1) % 256 }
          let cb4 :=
            if cb3.b_mlstart_i = 2 then { cb3 with b_state := .needLoadaddr }
            else cb3
          { cb4 with b_byte := 0, b_nbit := 0 }
        else cb
      some { cb2 with b_nbit := (cb2.b_nbit + 1) % 256 }
  | .needLoadaddr =>
      let cb2 :=
        if cb.b_nbit = 8 then
          let cb3 := { cb with
            b_mlload := cb.b_mlload.set cb.b_mlload_i cb.b_byte,
            b_cksum := (cb.b_cksum + cb.b_byte) % 256,
            b_mlload_i := (cb.b_mlload_i + 1) % 256,
            b_length := (cb.b_length + 255) % 256 }
          let cb4 :=
            if cb3.b_mlload_i = 2 then { cb3 with b_state := .needCksum }
            else cb3
          { cb4 with b_byte := 0, b_nbit := 0 }
        else cb
      some { cb2 with b_nbit := (cb2.b_nbit + 1) % 256 }
  | .needData =>
      let cb2 :=
        if cb.b_nbit = 8 then
          let cb3 := { cb with
            b_data := some ((cb.b_data.getD []).set cb.b_data_i cb.b_byte),
            b_cksum := (cb.b_cksum + cb.b_byte) % 256,
            b_data_i := (cb.b_data_i + 1) % 256 }
          let cb4 :=
            if cb3.b_length = cb3.b_data_i then { cb3 with b_state := .needCksum }
            else cb3
          { cb4 with b_byte := 0, b_nbit := 0 }
        else cb
      some { cb2 with b_nbit := (cb2.b_nbit + 1) % 256 }
  | .needCksum =>
      if cb.b_nbit = 8 then
        if cb.b_byte ≠ cb.b_cksum then
          none
        else
          some { cb with b_state := .needLeadbyte, b_byte := 0,
                         b_nbit := (0 + 1) % 256 }
      else
        some { cb with b_nbit := (cb.b_nbit + 1) % 256 }
  | .needLeadbyte =>
      let cb2 :=
        if cb.b_nbit = 8 then
          { cb with b_byte := 0, b_nbit := 0, b_state := .done }
        else cb
      some { cb2 with b_nbit := (cb2.b_nbit + 1) % 256 }
  | .done =>
      none

/-! ### The cycle classifier and the decode loop of `main` -/

/-- Default threshold globals: `#define ZL 31`, `ZH 1000`, `OL 18`, `OH 31`
assigned to `z_zero_low`, `Z_zero_high`, `o_one_low`, `O_one_high`. -/
def o_one_low : Nat := 18

/-- Default `O_one_high = OH = 31`. -/
def O_one_high : Nat := 31

/-- Default `z_zero_low = ZL = 31`. -/
def z_zero_low : Nat := 31

/-- Default `Z_zero_high = ZH = 1000`. -/
def Z_zero_high : Nat := 1000

/-- Result of classifying one measured cycle. -/
inductive Cls where
  | one
  | zero
  | invalid
deriving DecidableEq, Repr

/-- The classification chain in `main`:
`if (count >= o_one_low && count <= O_one_high) … else if (count >= z_zero_low
&& count <= Z_zero_high) … else …` (noise). -/
def classify (ol oh zl zh c : Nat) : Cls :=
  if ol ≤ c ∧ c ≤ oh then .one
  else if zl ≤ c ∧ c ≤ zh then .zero
  else .invalid

/-- One shift of the bit assembler: a one is
`cb->b_byte = (cb->b_byte >> 1) | 0x80`, a zero is `cb->b_byte >> 1`
(on a `uint8_t`, so `x >> 1` is `x / 2` and the `| 0x80` adds 128). -/
def shiftIn (b : Bool) (x : Nat) : Nat :=
  if b then x / 2 + 128 else x / 2

/-- Bit insertion as done in `main`; an invalid cycle leaves `b_byte`
untouched. -/
def applyCls (cls : Cls) (cb : Block) : Block :=
  match cls with
  | .one => { cb with b_byte := shiftIn true cb.b_byte }
  | .zero => { cb with b_byte := shiftIn false cb.b_byte }
  | .invalid => cb

/-- Decode-loop state outside the current sample index: the chain of fully
completed blocks (in allocation order) and the current block `cb`
(`none` exactly when the C pointer is `NULL`). -/
structure MState where
  blocks : List Block
  cb : Option Block
deriving DecidableEq, Repr

/-- Block allocation at the top of the sample loop: `if (!cb) { malloc;
memset; b_state = BS_NEED_SYNCBYTE; link into chain }`. -/
def ensure (s : MState) : MState :=
  match s.cb with
  | some _ => s
  | none => { s with cb := some freshBlock }

/-- The `BS_DONE` handling after `process_bit` in `main`: a completed EOF
block hands the chain to `print_prog` and frees every block; any other
completed block stays on the chain; in both cases `cb` is set to `NULL`. -/
def stepDone (s : MState) (cb : Block) : MState :=
  if cb.b_state = .done then
    if cb.b_type = 0xFF then { blocks := [], cb := none }
    else { blocks := s.blocks ++ [cb], cb := none }
  else { s with cb := some cb }

/-- Everything `main` does inside the falling-zero-crossing branch, given the
classification of the just-measured cycle: insert the bit (or not), run
`process_bit`, then handle `BS_DONE`. -/
def crossBody (cls : Cls) (s : MState) : Option MState :=
  let cb := applyCls cls (s.cb.getD freshBlock)
  match process_bit cb with
  | none => none
  | some cb2 => some (stepDone s cb2)

/-- `wav.data[j] < 0 && wav.data[j-1] >= 0`: a falling zero crossing. -/
def fallingCross (prev cur : Int) : Bool :=
  cur < 0 && 0 ≤ prev

/-- Loop state of `main`: the block bookkeeping plus the running sample
counter `count`. -/
structure LoopSt where
  ms : MState
  count : Nat
deriving DecidableEq, Repr

/-- One iteration of the sample loop of `main`, for sample pair
`(wav.data[j-1], wav.data[j])`: allocate a block if needed; on a falling
crossing classify `count`, feed the state machine and restart the counter
(the `count = 0` inside the branch followed by the unconditional `count++`
leaves `count = 1`); otherwise just `count++`. -/
def mainStep (ol oh zl zh : Nat) (prev cur : Int) (st : LoopSt) : Option LoopSt :=
  let s := ensure st.ms
  if fallingCross prev cur then
    match crossBody (classify ol oh zl zh st.count) s with
    | none => none
    | some s2 => some ⟨s2, 1⟩
  else
    some ⟨s, st.count + 1⟩

/-- Fold `mainStep` over a list of consecutive sample pairs. -/
def runFrom (ol oh zl zh : Nat) (st : LoopSt) : List (Int × Int) → Option LoopSt
  | [] => some st
  | p :: rest =>
      match mainStep ol oh zl zh p.1 p.2 st with
      | none => none
      | some st2 => runFrom ol oh zl zh st2 rest

/-- The pairs `(wav.data[j-1], wav.data[j])` visited by `for (j = 1; …)`. -/
def samplePairs (samples : List Int) : List (Int × Int) :=
  samples.zip (samples.drop 1)

/-- The whole decode loop of `main` on a loaded sample sequence, with the
default thresholds: start with an empty chain, no current block and
`count = 0`. -/
def runMain (samples : List Int) : Option LoopSt :=
  runFrom o_one_low O_one_high z_zero_low Z_zero_high
    ⟨⟨[], none⟩, 0⟩ (samplePairs samples)

/-! ### Bit- and byte-level drivers (the same loop body, fed directly) -/

/-- Feeding one already-classified bit to the decode loop (what the crossing
branch does once the classification is a valid bit). -/
def driveTopBit (b : Bool) (s : MState) : Option MState :=
  crossBody (if b then .one else .zero) (ensure s)

/-- Feed a list of bits. -/
def driveTopBits : List Bool → MState → Option MState
  | [], s => some s
  | b :: rest, s =>
      match driveTopBit b s with
      | none => none
      | some s2 => driveTopBits rest s2

/-- A byte as it appears on the tape: least-significant bit first (the bit
assembler shifts each new bit in at bit 7). -/
def bitsOfByte (v : Nat) : List Bool :=
  [v.testBit 0, v.testBit 1, v.testBit 2, v.testBit 3,
   v.testBit 4, v.testBit 5, v.testBit 6, v.testBit 7]

/-- Feed a list of bytes, bit by bit. -/
def driveTopBytes (bs : List Nat) (s : MState) : Option MState :=
  driveTopBits (bs.flatMap bitsOfByte) s

/-- The frame bytes of a Data block with payload `p`: sync byte, block type
`0x01`, length byte, payload, checksum byte, trailing leader byte. -/
def frameOf (p : List Nat) : List Nat :=
  0x3C :: 0x01 :: p.length :: (p ++ [(1 + p.length + p.sum) % 256, 0x55])

/-- The block record produced by a fully decoded Data-block frame with
payload `p`, starting from block record `cb`. -/
def finishData (cb : Block) (p : List Nat) : Block :=
  { cb with b_state := .done, b_type := 1, b_length := p.length,
            b_cksum := (1 + p.length + p.sum) % 256,
            b_data := some (p ++ [0]), b_data_i := p.length,
            b_byte := 0, b_nbit := 1 }

/-! ### Helper lemmas about the drivers -/

theorem driveTopBits_cons (b : Bool) (bs : List Bool) (s : MState) :
    driveTopBits (b :: bs) s =
      match driveTopBit b s with
      | none => none
      | some s2 => driveTopBits bs s2 := rfl

theorem driveTopBits_append (l1 l2 : List Bool) (s : MState) :
    driveTopBits (l1 ++ l2) s =
      match driveTopBits l1 s with
      | none => none
      | some s2 => driveTopBits l2 s2 := by
  induction l1 generalizing s with
  | nil => simp [driveTopBits]
  | cons b bs ih =>
      simp only [List.cons_append, driveTopBits_cons]
      cases driveTopBit b s with
      | none => rfl
      | some s2 => exact ih s2

theorem driveTopBytes_cons (v : Nat) (bs : List Nat) (s : MState) :
    driveTopBytes (v :: bs) s =
      match driveTopBits (bitsOfByte v) s with
      | none => none
      | some s2 => driveTopBytes bs s2 := by
  simp only [driveTopBytes, List.flatMap_cons, driveTopBits_append]

theorem driveTopBytes_append (l1 l2 : List Nat) (s : MState) :
    driveTopBytes (l1 ++ l2) s =
      match driveTopBytes l1 s with
      | none => none
      | some s2 => driveTopBytes l2 s2 := by
  simp only [driveTopBytes, List.flatMap_append, driveTopBits_append]

theorem driveTopBits_alloc (b : Bool) (bs : List Bool) (comp : List Block) :
    driveTopBits (b :: bs) ⟨comp, none⟩ =
      driveTopBits (b :: bs) ⟨comp, some freshBlock⟩ := rfl

/-- In any state other than `BS_NEED_SYNCBYTE` and `BS_DONE`, a call with
fewer than 8 bits accumulated only increments the bit counter. -/
theorem process_bit_nonconsume (cb : Block)
    (hs : cb.b_state ≠ .needSyncbyte) (hd : cb.b_state ≠ .done)
    (hn : cb.b_nbit ≠ 8) :
    process_bit cb = some { cb with b_nbit := (cb.b_nbit + 1) % 256 } := by
  obtain ⟨st, ty, len, ck, dat, pn, ft, af, gf, ms, ml, bb, nb, di, pi, si, li⟩ := cb
  simp only [Block.mk.injEq] at *
  cases st <;> simp_all [process_bit]

theorem stepDone_cb_irrel (comp : List Block) (x y : Option Block) (cb2 : Block) :
    stepDone ⟨comp, x⟩ cb2 = stepDone ⟨comp, y⟩ cb2 := by
  unfold stepDone
  split
  · rfl
  · rfl

/-- A valid bit fed mid-byte (fewer than 8 bits accumulated, not scanning
for sync): the byte shifts and the bit counter advances. -/
theorem driveTopBit_mid (b : Bool) (comp : List Block) (cb : Block)
    (hs : cb.b_state ≠ .needSyncbyte) (hd : cb.b_state ≠ .done)
    (hn : cb.b_nbit ≠ 8) :
    driveTopBit b ⟨comp, some cb⟩ =
      some ⟨comp, some { cb with b_byte := shiftIn b cb.b_byte,
                                 b_nbit := (cb.b_nbit + 1) % 256 }⟩ := by
  have hpb := process_bit_nonconsume { cb with b_byte := shiftIn b cb.b_byte }
    (by simpa using hs) (by simpa using hd) (by simpa using hn)
  unfold driveTopBit crossBody ensure
  cases b <;>
    simp [applyCls, hpb, stepDone, hd]

/-- The behaviour of one whole consumed byte in a consuming state. -/
def consumeTop (v : Nat) (comp : List Block) (cb : Block) : Option MState :=
  match process_bit { cb with b_byte := v, b_nbit := 8 } with
  | none => none
  | some cb2 => some (stepDone ⟨comp, some cb⟩ cb2)

/-- Folding the serial shifts of a list of bits into the byte register. -/
def absorb (bits : List Bool) (x : Nat) : Nat :=
  bits.foldl (fun a b => shiftIn b a) x

theorem absorb_nil (x : Nat) : absorb [] x = x := rfl

theorem absorb_cons (b : Bool) (bs : List Bool) (x : Nat) :
    absorb (b :: bs) x = absorb bs (shiftIn b x) := rfl

theorem absorb_concat (bs : List Bool) (b : Bool) (x : Nat) :
    absorb (bs ++ [b]) x = shiftIn b (absorb bs x) := by
  simp [absorb, List.foldl_append]

theorem absorb_bitsOfByte : ∀ v < 256, absorb (bitsOfByte v) 0 = v := by decide

theorem applyCls_bit (b : Bool) (cb : Block) :
    applyCls (if b then Cls.one else Cls.zero) cb =
      { cb with b_byte := shiftIn b cb.b_byte } := by
  cases b <;> rfl

/-- Feeding bits mid-byte: as long as the 8-bit boundary is not reached,
the bits accumulate in `b_byte` and the bit counter advances. -/
theorem drive_mid_bits (bs : List Bool) (comp : List Block) (cb : Block)
    (hs : cb.b_state ≠ .needSyncbyte) (hd : cb.b_state ≠ .done)
    (h1 : 1 ≤ cb.b_nbit) (h8 : cb.b_nbit + bs.length ≤ 8) :
    driveTopBits bs ⟨comp, some cb⟩ =
      some ⟨comp, some { cb with b_byte := absorb bs cb.b_byte,
                                 b_nbit := cb.b_nbit + bs.length }⟩ := by
  induction bs generalizing cb with
  | nil => simp [driveTopBits, absorb_nil]
  | cons b rest ih =>
      simp only [List.length_cons] at h8
      rw [driveTopBits_cons, driveTopBit_mid b comp cb hs hd (by omega)]
      have hmod : (cb.b_nbit + 1) % 256 = cb.b_nbit + 1 :=
        Nat.mod_eq_of_lt (by omega)
      simp only [hmod]
      rw [ih { cb with b_byte := shiftIn b cb.b_byte, b_nbit := cb.b_nbit + 1 }
        (by simpa using hs) (by simpa using hd) (by simp)
        (by show cb.b_nbit + 1 + rest.length ≤ 8; omega)]
      have harith : cb.b_nbit + 1 + rest.length = cb.b_nbit + (rest.length + 1) := by
        omega
      simp [absorb_cons, harith]

/-- Feeding the 8 bits of a byte `v` to a block that sits at a byte boundary
(`b_nbit = 1`, `b_byte = 0`) of a consuming state is exactly one byte-level
step of the state machine. -/
theorem driveTopBits_byte (v : Nat) (hv : v < 256) (comp : List Block) (cb : Block)
    (hs : cb.b_state ≠ .needSyncbyte) (hd : cb.b_state ≠ .done)
    (hn : cb.b_nbit = 1) (hb : cb.b_byte = 0) :
    driveTopBits (bitsOfByte v) ⟨comp, some cb⟩ = consumeTop v comp cb := by
  have h7 : bitsOfByte v =
      [v.testBit 0, v.testBit 1, v.testBit 2, v.testBit 3,
       v.testBit 4, v.testBit 5, v.testBit 6] ++ [v.testBit 7] := rfl
  have habs : shiftIn (v.testBit 7)
      (absorb [v.testBit 0, v.testBit 1, v.testBit 2, v.testBit 3,
               v.testBit 4, v.testBit 5, v.testBit 6] 0) = v := by
    rw [← absorb_concat, ← h7]
    exact absorb_bitsOfByte v hv
  rw [h7, driveTopBits_append,
      drive_mid_bits _ comp cb hs hd (by omega) (by simp [hn])]
  simp only [hn, hb, List.length_cons, List.length_nil]
  rw [driveTopBits_cons]
  unfold driveTopBit crossBody ensure
  simp only [Option.getD_some, applyCls_bit]
  simp only [habs]
  unfold consumeTop
  have hrec : ({ cb with
      b_byte := v, b_nbit := 1 + 7 } : Block) =
      { cb with b_byte := v, b_nbit := 8 } := by norm_num
  rw [hrec]
  cases hres : process_bit { cb with b_byte := v, b_nbit := 8 } with
  | none => simp
  | some cb2 =>
      simp only [driveTopBits]
      rw [stepDone_cb_irrel]

/-! ### Byte-level behaviour of each protocol phase -/

/-- A bit arriving while the machine scans for sync and the shifted byte
register does not show `0x3C`: only the register changes. -/
theorem driveTopBit_sync_miss (b : Bool) (comp : List Block) (cb : Block)
    (h : cb.b_state = .needSyncbyte) (hne : shiftIn b cb.b_byte ≠ 0x3C) :
    driveTopBit b ⟨comp, some cb⟩ =
      some ⟨comp, some { cb with b_byte := shiftIn b cb.b_byte }⟩ := by
  unfold driveTopBit crossBody ensure
  cases b <;> simp [applyCls, process_bit, h, hne, stepDone]

/-- The bit that completes `0x3C` in the register: sync is found. -/
theorem driveTopBit_sync_hit (b : Bool) (comp : List Block) (cb : Block)
    (h : cb.b_state = .needSyncbyte) (heq : shiftIn b cb.b_byte = 0x3C) :
    driveTopBit b ⟨comp, some cb⟩ =
      some ⟨comp, some { cb with b_state := .needBlocktype,
                                 b_byte := 0, b_nbit := 1 }⟩ := by
  unfold driveTopBit crossBody ensure
  cases b <;> simp [applyCls, process_bit, h, heq, stepDone]

/-- Scanning for sync with a run of bits none of whose prefixes completes
`0x3C`: the bits just accumulate in the register. -/
theorem drive_sync_scan (bs : List Bool) (comp : List Block) (cb : Block)
    (h : cb.b_state = .needSyncbyte)
    (hmiss : ∀ k, k < bs.length → absorb (bs.take (k + 1)) cb.b_byte ≠ 0x3C) :
    driveTopBits bs ⟨comp, some cb⟩ =
      some ⟨comp, some { cb with b_byte := absorb bs cb.b_byte }⟩ := by
  induction bs generalizing cb with
  | nil => simp [driveTopBits, absorb_nil]
  | cons b rest ih =>
      have h0 : shiftIn b cb.b_byte ≠ 0x3C := by
        have hm := hmiss 0 (by simp)
        simpa [absorb_cons, absorb_nil] using hm
      rw [driveTopBits_cons, driveTopBit_sync_miss b comp cb h h0]
      simp only
      rw [ih { cb with b_byte := shiftIn b cb.b_byte } (by simpa using h)
          (fun k hk => by
            have hm := hmiss (k + 1) (by simpa using Nat.succ_lt_succ hk)
            simpa [absorb_cons] using hm)]
      simp [absorb_cons]

/-- Scanning for sync: the 8 bits of `0x3C` arriving into an empty byte
register are recognised, the scratch resets, and the machine moves to
`BS_NEED_BLOCKTYPE` with `b_nbit = 1`. -/
theorem drive_sync (comp : List Block) (cb : Block)
    (h : cb.b_state = .needSyncbyte) (hb : cb.b_byte = 0) :
    driveTopBits (bitsOfByte 0x3C) ⟨comp, some cb⟩ =
      some ⟨comp, some { cb with b_state := .needBlocktype,
                                 b_byte := 0, b_nbit := 1 }⟩ := by
  have hsplit : bitsOfByte 0x3C =
      [false, false, true, true, true, true, false] ++ [false] := by decide
  rw [hsplit, driveTopBits_append,
      drive_sync_scan [false, false, true, true, true, true, false] comp cb h
        (by simp only [hb]; decide)]
  simp only
  rw [driveTopBits_cons,
      driveTopBit_sync_hit false comp _ (by simpa using h) (by simp [hb]; decide)]
  simp [driveTopBits]

/-- The block-type byte `0x01` (Data) is accepted and seeds the checksum. -/
theorem drive_blocktype_data (comp : List Block) (cb : Block)
    (h : cb.b_state = .needBlocktype) (hn : cb.b_nbit = 1) (hb : cb.b_byte = 0) :
    driveTopBits (bitsOfByte 0x01) ⟨comp, some cb⟩ =
      some ⟨comp, some { cb with b_state := .needLength, b_type := 1,
                                 b_cksum := 1, b_byte := 0, b_nbit := 1 }⟩ := by
  rw [driveTopBits_byte 0x01 (by norm_num) comp cb (by simp [h]) (by simp [h]) hn hb]
  obtain ⟨st, ty, len, ck, dat, pn, ft, af, gf, ms, ml, bb, nb, di, pi, si, li⟩ := cb
  simp only at h
  subst h
  simp [consumeTop, process_bit, stepDone]

/-- A byte that fails block-type validation resets the machine to the
sync-scanning state (framing error, non-fatal). -/
theorem drive_blocktype_bad (v : Nat) (hv : v < 256)
    (h0 : v ≠ 0x00) (h1 : v ≠ 0x01) (hF : v ≠ 0xFF)
    (comp : List Block) (cb : Block)
    (h : cb.b_state = .needBlocktype) (hn : cb.b_nbit = 1) (hb : cb.b_byte = 0) :
    driveTopBits (bitsOfByte v) ⟨comp, some cb⟩ =
      some ⟨comp, some { cb with b_state := .needSyncbyte,
                                 b_byte := 0, b_nbit := 1 }⟩ := by
  rw [driveTopBits_byte v hv comp cb (by simp [h]) (by simp [h]) hn hb]
  obtain ⟨st, ty, len, ck, dat, pn, ft, af, gf, ms, ml, bb, nb, di, pi, si, li⟩ := cb
  simp only at h hn hb
  subst h
  simp [consumeTop, process_bit, stepDone, h0, h1, hF]

/-- The length byte for a Data block: recorded, added to the checksum, and
the payload buffer of `length + 1` bytes is allocated zero-filled. -/
theorem drive_length_data (len : Nat) (hlen : len < 256)
    (comp : List Block) (cb : Block)
    (h : cb.b_state = .needLength) (ht : cb.b_type = 1)
    (hn : cb.b_nbit = 1) (hb : cb.b_byte = 0) :
    driveTopBits (bitsOfByte len) ⟨comp, some cb⟩ =
      some ⟨comp, some { cb with b_state := .needData, b_length := len,
                                 b_cksum := (cb.b_cksum + len) % 256,
                                 b_data := some (List.replicate (len + 1) 0),
                                 b_byte := 0, b_nbit := 1 }⟩ := by
  rw [driveTopBits_byte len hlen comp cb (by simp [h]) (by simp [h]) hn hb]
  obtain ⟨st, ty, len0, ck, dat, pn, ft, af, gf, ms, ml, bb, nb, di, pi, si, li⟩ := cb
  simp only at h ht hn hb
  subst h ht
  simp [consumeTop, process_bit, stepDone]

theorem set_append_cons (w : List Nat) (y x : Nat) (t : List Nat) :
    (w ++ y :: t).set w.length x = w ++ x :: t := by
  induction w with
  | nil => rfl
  | cons a as ih => simp [ih]

/-- One payload byte in `BS_NEED_DATA` that is not yet the last one. -/
theorem drive_data_mid (v : Nat) (hv : v < 256) (comp : List Block) (cb : Block)
    (h : cb.b_state = .needData) (hn : cb.b_nbit = 1) (hb : cb.b_byte = 0)
    (hi : cb.b_data_i + 1 < 256) (hne : cb.b_length ≠ cb.b_data_i + 1) :
    driveTopBits (bitsOfByte v) ⟨comp, some cb⟩ =
      some ⟨comp, some { cb with
        b_data := some ((cb.b_data.getD []).set cb.b_data_i v),
        b_cksum := (cb.b_cksum + v) % 256,
        b_data_i := cb.b_data_i + 1, b_byte := 0, b_nbit := 1 }⟩ := by
  rw [driveTopBits_byte v hv comp cb (by simp [h]) (by simp [h]) hn hb]
  obtain ⟨st, ty, len, ck, dat, pn, ft, af, gf, ms, ml, bb, nb, di, pi, si, li⟩ := cb
  simp only at h hn hb hi hne
  subst h
  simp [consumeTop, process_bit, stepDone, Nat.mod_eq_of_lt hi, hne]

/-- The last payload byte in `BS_NEED_DATA`: `b_data_i` reaches `b_length`
and the machine moves on to the checksum byte. -/
theorem drive_data_last (v : Nat) (hv : v < 256) (comp : List Block) (cb : Block)
    (h : cb.b_state = .needData) (hn : cb.b_nbit = 1) (hb : cb.b_byte = 0)
    (hi : cb.b_data_i + 1 < 256) (heq : cb.b_length = cb.b_data_i + 1) :
    driveTopBits (bitsOfByte v) ⟨comp, some cb⟩ =
      some ⟨comp, some { cb with
        b_state := .needCksum,
        b_data := some ((cb.b_data.getD []).set cb.b_data_i v),
        b_cksum := (cb.b_cksum + v) % 256,
        b_data_i := cb.b_data_i + 1, b_byte := 0, b_nbit := 1 }⟩ := by
  rw [driveTopBits_byte v hv comp cb (by simp [h]) (by simp [h]) hn hb]
  obtain ⟨st, ty, len, ck, dat, pn, ft, af, gf, ms, ml, bb, nb, di, pi, si, li⟩ := cb
  simp only at h hn hb hi heq
  subst h heq
  simp [consumeTop, process_bit, stepDone, Nat.mod_eq_of_lt hi]

/-- The whole payload phase of a Data block, by induction over the
remaining payload bytes. `w` is what has been written so far. -/
theorem drive_data_phase (p : List Nat) (hp : ∀ b ∈ p, b < 256) (hne : p ≠ [])
    (comp : List Block) (cb : Block) (w : List Nat)
    (h : cb.b_state = .needData) (hn : cb.b_nbit = 1) (hb : cb.b_byte = 0)
    (hw : cb.b_data = some (w ++ List.replicate (p.length + 1) 0))
    (hi : cb.b_data_i = w.length)
    (hlen : cb.b_length = w.length + p.length)
    (hbound : w.length + p.length < 256) :
    driveTopBytes p ⟨comp, some cb⟩ =
      some ⟨comp, some { cb with b_state := .needCksum,
                                 b_data := some (w ++ p ++ [0]),
                                 b_data_i := w.length + p.length,
                                 b_cksum := (cb.b_cksum + p.sum) % 256,
                                 b_byte := 0, b_nbit := 1 }⟩ := by
  induction p generalizing cb w with
  | nil => exact absurd rfl hne
  | cons x rest ih =>
      have hx : x < 256 := hp x (by simp)
      have hlen2 : cb.b_length = w.length + rest.length + 1 := by
        simp only [List.length_cons] at hlen
        omega
      have hbound2 : w.length + rest.length + 1 < 256 := by
        simp only [List.length_cons] at hbound
        omega
      have hw2 : cb.b_data = some (w ++ 0 :: List.replicate (rest.length + 1) 0) := by
        simp only [List.length_cons] at hw
        rw [hw, List.replicate_succ]
      have hset : (cb.b_data.getD []).set cb.b_data_i x =
          w ++ x :: List.replicate (rest.length + 1) 0 := by
        rw [hw2, hi]
        simp [set_append_cons]
      by_cases hrest : rest = []
      · subst hrest
        simp only [List.length_nil] at hlen2 hbound2
        rw [driveTopBytes_cons,
            drive_data_last x hx comp cb h hn hb (by omega) (by omega)]
        simp only [driveTopBytes, List.flatMap_nil, driveTopBits]
        rw [hset]
        simp only [List.length_cons, List.length_nil, List.replicate]
        simp [hi]
      · have hrlen : 1 ≤ rest.length := by
          cases rest with
          | nil => exact absurd rfl hrest
          | cons r rs => simp
        rw [driveTopBytes_cons,
            drive_data_mid x hx comp cb h hn hb (by omega) (by omega)]
        simp only
        rw [ih (fun b hbm => hp b (List.mem_cons_of_mem x hbm)) hrest
            { cb with b_data := some ((cb.b_data.getD []).set cb.b_data_i x),
                      b_cksum := (cb.b_cksum + x) % 256,
                      b_data_i := cb.b_data_i + 1, b_byte := 0, b_nbit := 1 }
            (w ++ [x])
            (by simpa using h)
            (by simp)
            (by simp)
            (by simp only; rw [hset]; simp)
            (by simp [hi])
            (by simp only; simp; omega)
            (by simp; omega)]
        have hver : ((cb.b_cksum + x) % 256 + rest.sum) % 256 =
            (cb.b_cksum + (x + rest.sum)) % 256 := by
          rw [Nat.mod_add_mod, Nat.add_assoc]
        simp only [List.length_append, List.length_cons, List.length_nil,
          List.sum_cons, hver, List.append_assoc, List.cons_append,
          List.nil_append]
        have hdi : w.length + (0 + 1) + rest.length = w.length + (rest.length + 1) := by
          omega
        rw [hdi]

/-- The checksum byte: a mismatch is fatal (`return 1`, modelled `none`);
a match moves on to the trailing leader byte. -/
theorem drive_cksum (v : Nat) (hv : v < 256) (comp : List Block) (cb : Block)
    (h : cb.b_state = .needCksum) (hn : cb.b_nbit = 1) (hb : cb.b_byte = 0) :
    driveTopBits (bitsOfByte v) ⟨comp, some cb⟩ =
      if v = cb.b_cksum then
        some ⟨comp, some { cb with b_state := .needLeadbyte,
                                   b_byte := 0, b_nbit := 1 }⟩
      else none := by
  rw [driveTopBits_byte v hv comp cb (by simp [h]) (by simp [h]) hn hb]
  obtain ⟨st, ty, len, ck, dat, pn, ft, af, gf, ms, ml, bb, nb, di, pi, si, li⟩ := cb
  simp only at h
  subst h
  by_cases hc : v = ck
  · simp [consumeTop, process_bit, stepDone, hc]
  · simp [consumeTop, process_bit, stepDone, hc]

/-- The trailing leader byte of a non-EOF block: the block completes and is
left on the chain; `main` then clears `cb`. -/
theorem drive_lead (comp : List Block) (cb : Block)
    (h : cb.b_state = .needLeadbyte) (hn : cb.b_nbit = 1) (hb : cb.b_byte = 0)
    (ht : cb.b_type ≠ 0xFF) :
    driveTopBits (bitsOfByte 0x55) ⟨comp, some cb⟩ =
      some ⟨comp ++ [{ cb with b_state := .done, b_byte := 0, b_nbit := 1 }],
            none⟩ := by
  rw [driveTopBits_byte 0x55 (by norm_num) comp cb (by simp [h]) (by simp [h]) hn hb]
  obtain ⟨st, ty, len, ck, dat, pn, ft, af, gf, ms, ml, bb, nb, di, pi, si, li⟩ := cb
  simp only at h ht
  subst h
  simp [consumeTop, process_bit, stepDone, ht]

/-- The state of a Data block after sync, type, length and the whole payload
have been consumed, right before the checksum byte. -/
def preCksum (cb : Block) (p : List Nat) : Block :=
  { cb with b_state := .needCksum, b_type := 1, b_length := p.length,
            b_cksum := (1 + p.length + p.sum) % 256,
            b_data := some (p ++ [0]), b_data_i := p.length,
            b_byte := 0, b_nbit := 1 }

/-- Decoding the header and payload of a Data frame, from sync scanning up
to the point where the checksum byte is awaited. -/
theorem drive_preCksum (p : List Nat) (hp : ∀ b ∈ p, b < 256) (hne : p ≠ [])
    (hlen : p.length < 256) (comp : List Block) (cb : Block)
    (h : cb.b_state = .needSyncbyte) (hb : cb.b_byte = 0) (hi : cb.b_data_i = 0) :
    driveTopBytes (0x3C :: 0x01 :: p.length :: p) ⟨comp, some cb⟩ =
      some ⟨comp, some (preCksum cb p)⟩ := by
  rw [driveTopBytes_cons, drive_sync comp cb h hb]
  simp only
  rw [driveTopBytes_cons, drive_blocktype_data comp _ (by simp) (by simp) (by simp)]
  simp only
  rw [driveTopBytes_cons, drive_length_data p.length hlen comp _
      (by simp) (by simp) (by simp) (by simp)]
  simp only
  rw [drive_data_phase p hp hne comp _ []
      (by simp) (by simp) (by simp)
      (by simp)
      (by simp [hi])
      (by simp [hi])
      (by simpa using hlen)]
  simp only [preCksum]
  simp [Nat.mod_add_mod]

/-- A complete well-formed Data frame decodes to one completed Data block
appended to the chain, with a fresh `cb` slot (`none`) afterwards. -/
theorem drive_frame_data (p : List Nat) (hp : ∀ b ∈ p, b < 256) (hne : p ≠ [])
    (hlen : p.length < 256) (comp : List Block) (cb : Block)
    (h : cb.b_state = .needSyncbyte) (hb : cb.b_byte = 0) (hi : cb.b_data_i = 0) :
    driveTopBytes (frameOf p) ⟨comp, some cb⟩ =
      some ⟨comp ++ [finishData cb p], none⟩ := by
  have hsplit : frameOf p =
      (0x3C :: 0x01 :: p.length :: p) ++ [(1 + p.length + p.sum) % 256, 0x55] := by
    simp [frameOf]
  rw [hsplit, driveTopBytes_append, drive_preCksum p hp hne hlen comp cb h hb hi]
  simp only
  rw [driveTopBytes_cons, drive_cksum ((1 + p.length + p.sum) % 256)
      (Nat.mod_lt _ (by norm_num)) comp (preCksum cb p)
      (by simp [preCksum]) (by simp [preCksum]) (by simp [preCksum])]
  rw [if_pos (by simp [preCksum])]
  simp only
  rw [driveTopBytes_cons, drive_lead comp _
      (by simp [preCksum]) (by simp [preCksum]) (by simp [preCksum])
      (by simp [preCksum])]
  simp [driveTopBytes, driveTopBits, preCksum, finishData]

/-! ### The program reconstructor `print_prog` and the renderer `asciidump` -/

/-- Operator/statement token table (`char token[][15]`), indexed by
`byte - 0x80` for bytes `0x7F < byte < 0xE0`. -/
def token : List String :=
  ["FOR", "GO", "REM", "\x27",
   "ELSE", "IF", "DATA", "PRINT",
   "ON", "INPUT", "END", "NEXT",
   "DIM", "READ", "RUN", "RESTORE",
   "RETURN", "STOP", "POKE", "CONT",
   "LIST", "CLEAR", "NEW", "CLOAD",
   "CSAVE", "OPEN", "CLOSE", "LLIST",
   "SET", "RESET", "CLS", "MOTOR",
   "SOUND", "AUDIO", "EXEC", "SKIPF",
   "TAB(", "TO", "SUB", "THEN",
   "NOT", "STEP", "OFF", "+",
   "-", "*", "/", "^",
   "AND", "OR", ">", "=",
   "<", "DEL", "EDIT", "TRON",
   "TROFF", "DEF", "LET", "LINE",
   "PCLS", "PSET", "PRESET", "SCREEN",
   "PCLEAR", "COLOR", "CIRCLE", "PAINT",
   "GET", "PUT", "DRAW", "PCOPY",
   "PMODE", "PLAY", "DLOAD", "RENUM",
   "FN", "USING",
   "DIR", "DRIVE",
   "FIELD", "FILES", "KILL", "LOAD",
   "LSET", "MERGE", "RENAME", "RSET",
   "SAVE", "WRITE", "VERIFY", "UNLOAD",
   "DSKINI", "BACKUP", "COPY", "DSKI$",
   "DSKO$"]

/-- Function token table (`char ftoken[][15]`), indexed by the byte after an
`0xFF` escape minus `0x80`. -/
def ftoken : List String :=
  ["SGN", "INT", "ABS", "USR",
   "RND", "SIN", "PEEK", "LEN",
   "STR$", "VAL", "ASC", "CHR$",
   "EOF", "JOYSTK", "LEFT$", "RIGHT$",
   "MID$", "POINT", "INKEY$", "MEM",
   "ATN", "COS", "TAN", "EXP",
   "FIX", "LOG", "POS", "SQR",
   "HEX$", "VARPTR", "INSTR", "TIMER",
   "PPOINT", "STRING$",
   "CVN", "FREE",
   "LOC", "LOF", "MKN$"]

def hexDigit (n : Nat) : String :=
  ["0", "1", "2", "3", "4", "5", "6", "7",
   "8", "9", "A", "B", "C", "D", "E", "F"].getD n "0"

/-- `printf("\\x%02X", byte)`. -/
def hexEsc (b : Nat) : String :=
  "\\x" ++ hexDigit (b / 16) ++ hexDigit (b % 16)

/-- `asciidump` from the source, on a byte list.  `isprint` (C locale) is
`0x20 ≤ b ≤ 0x7E`.  `none` models the undefined reads the C code makes when
an `0xFF` escape is the last byte (it reads past the buffer) or when the
escaped byte is below `0x80` or past the end of `ftoken` (negative or
out-of-range index). -/
def asciidump : List Nat → Option String
  | [] => some ""
  | b :: rest =>
      if 0x20 ≤ b ∧ b ≤ 0x7E then
        (asciidump rest).map (fun t => String.singleton (Char.ofNat b) ++ t)
      else if 0x7F < b ∧ b < 0xE0 then
        (asciidump rest).map (fun t => token.getD (b - 0x80) "" ++ t)
      else if b = 0xFF then
        match rest with
        | [] => none
        | nb :: rest2 =>
            if nb < 0x80 then none
            else
              match ftoken.get? (nb - 0x80) with
              | none => none
              | some s => (asciidump rest2).map (fun t => s ++ t)
      else if b ≠ 0 then
        (asciidump rest).map (fun t => hexEsc b ++ t)
      else
        asciidump rest

/-- Outcomes of `print_prog` other than normal return: the two `exit(1)`
paths, a NULL-pointer dereference, and an artificial fuel bound (never hit
on the inputs considered here). -/
inductive PpErr where
  | badLine
  | tooBig
  | crash
  | fuelOut
deriving DecidableEq, Repr

/-- A read of `cb->b_data[i]` (in-bounds by the call sites considered; an
out-of-range index yields the C garbage read, modelled as 0). -/
def bget (d : List Nat) (i : Nat) : Nat := d.getD i 0

/-- `i++; if (i == cb->b_length) { i = 0; cb = cb->b_next; blkn++; }`
The chain argument is the current block and its successors. -/
def adv (chain : List Block) (i blkn : Nat) : List Block × Nat × Nat :=
  match chain with
  | [] => ([], i + 1, blkn)
  | cb :: rest =>
      if i + 1 = cb.b_length then (rest, 0, (blkn + 1) % 256)
      else (cb :: rest, i + 1, blkn)

/-- `cb->b_data[i]`; `none` when `cb` or `cb->b_data` is NULL. -/
def rdByte (chain : List Block) (i : Nat) : Option Nat :=
  match chain with
  | [] => none
  | cb :: _ => cb.b_data.map (fun d => bget d i)

/-- The three-trailing-nulls end-of-program test at the top of the walk
loop: `(cb->b_length - i) == 2 && b_data[i] == 0 && b_data[i+1] == 0 &&
b_data[i+2] == 0` (short-circuit: the bytes are only read when the length
test holds). -/
def termTest (cb : Block) (i : Nat) : Option Bool :=
  if cb.b_length - i = 2 then
    match cb.b_data with
    | none => none
    | some d =>
        some (bget d i == 0 && bget d (i + 1) == 0 && bget d (i + 2) == 0)
  else some false

/-- The line-body copy loop: bytes up to (excluding) the 0x00 sentinel,
spanning blocks, fatal once the line buffer index reaches `LINELEN = 4096`.
Returns the body together with the cursor left on the sentinel. -/
def copyBody : Nat → List Block → Nat → Nat → List Nat →
    Except PpErr (List Nat × List Block × Nat × Nat)
  | fuel, chain, i, blkn, acc =>
      match rdByte chain i with
      | none => .error .crash
      | some b =>
          if b = 0 then .ok (acc, chain, i, blkn)
          else
            match fuel with
            | 0 => .error .fuelOut
            | fuel2 + 1 =>
                let acc2 := acc ++ [b]
                let st := adv chain i blkn
                if 4096 ≤ acc2.length then .error .tooBig
                else copyBody fuel2 st.1 st.2.1 st.2.2 acc2

/-- The line-record walk of `print_prog`: per iteration, the termination
test, the block-sequence tag check, the skipped next-line-offset byte, the
big-endian line number, the body copy, and the sentinel skip.  Produces the
`(lineno, body)` pairs in order; `.ok` on normal return. -/
def ppLoop : Nat → List Block → Nat → Nat → List (Nat × List Nat) →
    Except PpErr (List (Nat × List Nat))
  | _, [], _, _, acc => .ok acc
  | 0, _ :: _, _, _, _ => .error .fuelOut
  | fuel + 1, cb :: rest, i, blkn, acc =>
      match termTest cb i with
      | none => .error .crash
      | some true => .ok acc
      | some false =>
          match rdByte (cb :: rest) i with
          | none => .error .crash
          | some tag =>
              if tag ≠ blkn ∧ tag ≠ blkn + 1 then .error .badLine
              else
                let s1 := adv (cb :: rest) i blkn
                let s2 := adv s1.1 s1.2.1 s1.2.2
                match rdByte s2.1 s2.2.1 with
                | none => .error .crash
                | some hi8 =>
                    let s3 := adv s2.1 s2.2.1 s2.2.2
                    match rdByte s3.1 s3.2.1 with
                    | none => .error .crash
                    | some lo8 =>
                        let s4 := adv s3.1 s3.2.1 s3.2.2
                        match copyBody 4096 s4.1 s4.2.1 s4.2.2 [] with
                        | .error e => .error e
                        | .ok (body, ch, ii, bb) =>
                            let s5 := adv ch ii bb
                            ppLoop fuel s5.1 s5.2.1 s5.2.2
                              (acc ++ [(hi8 * 256 + lo8, body)])

/-- `print_prog` on a block chain: report the program name if the chain
head is a completed Name block, skip to the first Data block (returning
normally when there is none), seed `blkn` from the first payload byte and
walk the line records. -/
def print_prog (chain : List Block) :
    Except PpErr (Option (List Nat) × List (Nat × List Nat)) :=
  let nameOpt :=
    match chain with
    | cb :: _ =>
        if cb.b_state = .done ∧ cb.b_type = 0x00 then some cb.b_progname
        else none
    | [] => none
  let rest := chain.dropWhile (fun b => b.b_type ≠ 0x01)
  match rest with
  | [] => .ok (nameOpt, [])
  | cb :: _ =>
      match cb.b_data with
      | none => .error .crash
      | some d =>
          match ppLoop 1000000 rest 0 (bget d 0) [] with
          | .error e => .error e
          | .ok lines => .ok (nameOpt, lines)

/-! ### Claim C1: round trip on a synthetic waveform -/

/-- The byte sequence of the C1 frame: sync, type Data, length 3, payload
`{0x1E, 0x00, 0x41}`, checksum `(1 + 3 + 0x1E + 0x00 + 0x41) % 256 = 0x63`,
trailing leader byte. -/
def c1Bytes : List Nat := [0x3C, 0x01, 0x03, 0x1E, 0x00, 0x41, 0x63, 0x55]

/-- A sine cycle rendered as samples: a One is 18 samples per cycle, a Zero
is 40, each ending at the falling zero crossing (`-1` after positive
samples). -/
def cycleOf (b : Bool) : List Int :=
  if b then List.replicate 17 1 ++ [-1] else List.replicate 39 1 ++ [-1]

/-- The synthetic waveform: an initial short (noise) crossing to start a
cycle, then one cycle per bit of `c1Bytes`, least-significant bit first. -/
def c1Samples : List Int :=
  1 :: -1 :: (c1Bytes.flatMap bitsOfByte).flatMap cycleOf

/-- The block the C1 frame should decode to. -/
def c1Block : Block :=
  { freshBlock with b_state := .done, b_type := 1, b_length := 3,
                    b_cksum := 0x63, b_data := some [0x1E, 0x00, 0x41, 0],
                    b_data_i := 3, b_nbit := 1 }

/-- C1: on a sample sequence whose cycle lengths encode sync `0x3C`, type
`0x01`, length `0x03`, payload `{0x1E, 0x00, 0x41}`, the correct checksum
`0x63` and lead byte `0x55`, the decode loop of `main` produces exactly one
completed block (`BS_DONE`), of type Data, whose payload is exactly
`{0x1E, 0x00, 0x41}`. -/
theorem C1_round_trip :
    runMain c1Samples = some ⟨⟨[c1Block], none⟩, 1⟩ ∧
    c1Block.b_state = BState.done ∧
    c1Block.b_type = 0x01 ∧
    c1Block.b_length = 3 ∧
    (c1Block.b_data.getD []).take c1Block.b_length = [0x1E, 0x00, 0x41] := by
  decide

/-! ### Claim C8: default thresholds -/

/-- C8: the shipped default thresholds are `o_one_low = 18`,
`O_one_high = 31`, `z_zero_low = 31` (not 32 as the usage text and the spec
state) and `Z_zero_high = 1000` (not unbounded): a cycle of length 1001 is
classified as noise under the defaults, not as a Zero. -/
theorem C8_defaults :
    (o_one_low, O_one_high, z_zero_low, Z_zero_high) = (18, 31, 31, 1000) ∧
    z_zero_low ≠ 32 ∧
    classify o_one_low O_one_high z_zero_low Z_zero_high 1001 = Cls.invalid := by
  decide

/-! ### Claim C3: cycle classification -/

/-- C3 (counterexample): under the shipped default thresholds (where
`z_zero_low = 31 = O_one_high`), a cycle of length exactly `z_zero_low`
classifies as One, not Zero as the claim asserts for every configuration. -/
theorem C3_counterexample :
    classify o_one_low O_one_high z_zero_low Z_zero_high z_zero_low = Cls.one ∧
    Cls.one ≠ Cls.zero := by
  decide

/-- C3 (amended): One iff `one_low ≤ c ≤ one_high`; otherwise Zero iff
`zero_low ≤ c ≤ zero_high`; otherwise Invalid.  `c = one_high` classifies
One whenever the One range is nonempty; `c = zero_low` classifies Zero
provided the ranges do not overlap (`one_high < zero_low`) and the Zero
range is nonempty; a `c` strictly between `one_high` and `zero_low`
classifies Invalid. -/
theorem C3_classification (ol oh zl zh c : Nat) :
    (classify ol oh zl zh c = Cls.one ↔ ol ≤ c ∧ c ≤ oh) ∧
    (¬(ol ≤ c ∧ c ≤ oh) →
      (classify ol oh zl zh c = Cls.zero ↔ zl ≤ c ∧ c ≤ zh)) ∧
    (¬(ol ≤ c ∧ c ≤ oh) → ¬(zl ≤ c ∧ c ≤ zh) →
      classify ol oh zl zh c = Cls.invalid) ∧
    (ol ≤ oh → classify ol oh zl zh oh = Cls.one) ∧
    (oh < zl → zl ≤ zh → classify ol oh zl zh zl = Cls.zero) ∧
    (oh < c → c < zl → classify ol oh zl zh c = Cls.invalid) := by
  unfold classify
  refine ⟨?_, ?_, ?_, ?_, ?_, ?_⟩
  · split_ifs with h1 h2 <;> simp_all
  · intro h
    split_ifs with h1 <;> simp_all
  · intro h1 h2
    split_ifs
    simp_all
  · intro h
    rw [if_pos ⟨h, le_refl oh⟩]
  · intro h1 h2
    rw [if_neg (by omega), if_pos ⟨le_refl zl, h2⟩]
  · intro h1 h2
    rw [if_neg (by omega), if_neg (by omega)]

/-- Witness for the amended C3 at the spec's intended default-like
configuration `18/31/32/1000`. -/
theorem C3_classification_witness :
    classify 18 31 32 1000 31 = Cls.one ∧
    classify 18 31 32 1000 32 = Cls.zero ∧
    classify 18 31 34 1000 33 = Cls.invalid :=
  ⟨(C3_classification 18 31 32 1000 31).2.2.2.1 (by decide),
   (C3_classification 18 31 32 1000 32).2.2.2.2.1 (by decide) (by decide),
   (C3_classification 18 31 34 1000 33).2.2.2.2.2 (by decide) (by decide)⟩

/-! ### Claim C4: noise cycles and the scratch state -/

/-- A block that has just recognised sync and awaits the block type with
one bit pending. -/
def cbBlocktype : Block :=
  { freshBlock with b_state := .needBlocktype, b_nbit := 1 }

/-- C4 (counterexample): a noise cycle (count 5 classifies Invalid under
the defaults) arriving at a falling crossing still calls `process_bit`,
which advances the bit counter: the scratch state after the noise cycle
differs from the state before it. -/
theorem C4_counterexample :
    classify o_one_low O_one_high z_zero_low Z_zero_high 5 = Cls.invalid ∧
    mainStep o_one_low O_one_high z_zero_low Z_zero_high 1 (-1)
        ⟨⟨[], some cbBlocktype⟩, 5⟩ =
      some ⟨⟨[], some { cbBlocktype with b_nbit := 2 }⟩, 1⟩ ∧
    ({ cbBlocktype with b_nbit := 2 } : Block) ≠ cbBlocktype := by
  decide

/-- C4 (amended): an Invalid cycle leaves the byte register unchanged, but
the crossing handler still invokes `process_bit`; in every state other
than `BS_NEED_SYNCBYTE` and `BS_DONE` (with fewer than 8 bits pending) this
advances the bit counter by one, so noise alone can desynchronise byte
alignment; while scanning for sync (without a pending sync byte) the
scratch state is fully unchanged. -/
theorem C4_noise_step (c : Nat) (blocks : List Block) (cb : Block)
    (hcls : classify o_one_low O_one_high z_zero_low Z_zero_high c =
      Cls.invalid)
    (hs : cb.b_state ≠ .needSyncbyte) (hd : cb.b_state ≠ .done)
    (hn : cb.b_nbit ≠ 8) :
    (crossBody (classify o_one_low O_one_high z_zero_low Z_zero_high c)
        ⟨blocks, some cb⟩ =
      some ⟨blocks, some { cb with b_nbit := (cb.b_nbit + 1) % 256 }⟩) ∧
    ({ cb with b_nbit := (cb.b_nbit + 1) % 256 }).b_byte = cb.b_byte ∧
    (∀ cb2 : Block, cb2.b_state = .needSyncbyte → cb2.b_byte ≠ 0x3C →
      crossBody (classify o_one_low O_one_high z_zero_low Z_zero_high c)
          ⟨blocks, some cb2⟩ = some ⟨blocks, some cb2⟩) := by
  rw [hcls]
  refine ⟨?_, by simp, ?_⟩
  · unfold crossBody
    simp [applyCls, process_bit_nonconsume cb hs hd hn, stepDone, hd]
  · intro cb2 h2 hbyte
    unfold crossBody
    simp [applyCls, process_bit, h2, hbyte, stepDone]

/-- Witness for the amended C4: the concrete noise cycle of the
counterexample, derived through the amended theorem. -/
theorem C4_noise_step_witness :
    crossBody (classify o_one_low O_one_high z_zero_low Z_zero_high 5)
        ⟨[], some cbBlocktype⟩ =
      some ⟨[], some { cbBlocktype with b_nbit := 2 }⟩ :=
  (C4_noise_step 5 [] cbBlocktype (by decide) (by decide) (by decide)
    (by decide)).1

/-! ### Claim C6: token rendering -/

/-- One-step unfolding of `asciidump` on a cons cell. -/
theorem asciidump_cons (b : Nat) (rest : List Nat) :
    asciidump (b :: rest) =
      if 0x20 ≤ b ∧ b ≤ 0x7E then
        (asciidump rest).map (fun t => String.singleton (Char.ofNat b) ++ t)
      else if 0x7F < b ∧ b < 0xE0 then
        (asciidump rest).map (fun t => token.getD (b - 0x80) "" ++ t)
      else if b = 0xFF then
        (match rest with
         | [] => none
         | nb :: rest2 =>
             if nb < 0x80 then none
             else
               match ftoken.get? (nb - 0x80) with
               | none => none
               | some s => (asciidump rest2).map (fun t => s ++ t))
      else if b ≠ 0 then
        (asciidump rest).map (fun t => hexEsc b ++ t)
      else
        asciidump rest := by
  cases rest <;> rfl

/-- C6 (counterexample): byte `0xDF` is inside the code's token range
(`0x7F < b < 0xE0`) and renders as the keyword `DSKI$`, not as the escaped
hex form `\xDF` that the claim's interval `[0x80, 0xDF)` implies. -/
theorem C6_counterexample :
    asciidump [0xDF] = some "DSKI$" ∧ ("DSKI$" : String) ≠ "\\xDF" := by
  decide

/-- C6 (amended): printable ASCII is emitted as-is; a byte in
`[0x80, 0xE0)` (not `[0x80, 0xDF)`) is emitted as the operator keyword at
index `byte - 0x80` (`0x80` gives `FOR`); `0xFF` consumes the next byte
and emits the function keyword (`0xFF 0x80` gives `SGN`); any other
non-printable non-token byte other than `0x00` is emitted in escaped hex
(`0x01` gives `\x01`); `0x00` emits nothing. -/
theorem C6_token_rendering (b : Nat) (rest : List Nat) :
    (0x20 ≤ b ∧ b ≤ 0x7E →
      asciidump (b :: rest) =
        (asciidump rest).map (fun t => String.singleton (Char.ofNat b) ++ t)) ∧
    (0x7F < b ∧ b < 0xE0 →
      asciidump (b :: rest) =
        (asciidump rest).map (fun t => token.getD (b - 0x80) "" ++ t)) ∧
    (asciidump (0x80 :: rest) = (asciidump rest).map (fun t => "FOR" ++ t)) ∧
    (asciidump (0xFF :: 0x80 :: rest) =
      (asciidump rest).map (fun t => "SGN" ++ t)) ∧
    (¬(0x20 ≤ b ∧ b ≤ 0x7E) → ¬(0x7F < b ∧ b < 0xE0) → b ≠ 0xFF → b ≠ 0 →
      asciidump (b :: rest) = (asciidump rest).map (fun t => hexEsc b ++ t)) ∧
    (asciidump (0x01 :: rest) =
      (asciidump rest).map (fun t => "\\x01" ++ t)) ∧
    (asciidump (0x00 :: rest) = asciidump rest) := by
  refine ⟨?_, ?_, ?_, ?_, ?_, ?_, ?_⟩
  · intro h
    rw [asciidump_cons, if_pos h]
  · intro h
    have hnp : ¬(0x20 ≤ b ∧ b ≤ 0x7E) := by omega
    rw [asciidump_cons, if_neg hnp, if_pos h]
  · rw [asciidump_cons]
    norm_num
    rfl
  · rw [asciidump_cons]
    norm_num
    rfl
  · intro h1 h2 h3 h4
    rw [asciidump_cons, if_neg h1, if_neg h2, if_neg h3, if_pos h4]
  · rw [asciidump_cons]
    norm_num
    rfl
  · rw [asciidump_cons]
    norm_num

/-- Witness for the amended C6 on concrete bytes through the theorem. -/
theorem C6_token_rendering_witness :
    asciidump [0x41] = some "A" ∧ asciidump [0x05] = some "\x5Cx05" :=
  ⟨((C6_token_rendering 0x41 []).1 (by decide)).trans (by decide),
   ((C6_token_rendering 0x05 []).2.2.2.2.1 (by decide) (by decide)
      (by decide) (by decide)).trans (by decide)⟩

instance {A B : Type} [DecidableEq A] [DecidableEq B] :
    DecidableEq (Except A B) := fun a b =>
  match a, b with
  | .ok x, .ok y => decidable_of_iff (x = y) (by simp)
  | .error x, .error y => decidable_of_iff (x = y) (by simp)
  | .ok _, .error _ => isFalse (by simp)
  | .error _, .ok _ => isFalse (by simp)

/-! ### Claim C5: end-of-program detection -/

/-- A completed Data block as left on the chain by the state machine, with
declared length `len` and buffer `d` (payload plus guard byte). -/
def mkDataBlock (len : Nat) (d : List Nat) : Block :=
  { freshBlock with b_state := .done, b_type := 1, b_length := len,
                    b_data := some d, b_data_i := len, b_nbit := 1 }

/-- C5 (counterexample): a Data block whose walk reaches a position with
exactly THREE remaining bytes, all zero (position 5 of this length-8 block,
after one empty line numbered 65).  The claim says decoding stops
successfully there; the code instead fails the line-tag check and aborts
(`bad start of line`, `exit(1)`). -/
theorem C5_counterexample :
    print_prog [mkDataBlock 8 [30, 0, 0, 65, 0, 0, 0, 0, 0]] =
      Except.error PpErr.badLine ∧
    (mkDataBlock 8 [30, 0, 0, 65, 0, 0, 0, 0, 0]).b_length - 5 = 3 ∧
    bget [30, 0, 0, 65, 0, 0, 0, 0, 0] 5 = 0 ∧
    bget [30, 0, 0, 65, 0, 0, 0, 0, 0] 6 = 0 ∧
    bget [30, 0, 0, 65, 0, 0, 0, 0, 0] 7 = 0 := by
  decide

/-- C5 (amended): the reconstructor stops (successful return, rendering no
further lines) when the remaining bytes in the current Data block are
exactly TWO — not three — and those two bytes together with the guard byte
at index `length` (offsets `i`, `i+1`, `i+2`) are all zero. -/
theorem C5_end_of_program (fuel i blkn : Nat) (cb : Block) (rest : List Block)
    (acc : List (Nat × List Nat)) (d : List Nat)
    (hd : cb.b_data = some d) (hrem : cb.b_length - i = 2)
    (h0 : bget d i = 0) (h1 : bget d (i + 1) = 0) (h2 : bget d (i + 2) = 0) :
    ppLoop (fuel + 1) (cb :: rest) i blkn acc = Except.ok acc := by
  simp [ppLoop, termTest, hd, hrem, h0, h1, h2]

/-- Witness for the amended C5: a length-7 Data block stopping at position
5 (two remaining bytes plus guard, all zero), via the theorem. -/
theorem C5_end_of_program_witness :
    ppLoop 1 [mkDataBlock 7 [30, 0, 0, 65, 0, 0, 0, 0]] 5 30 [] =
      Except.ok [] :=
  C5_end_of_program 0 5 30 (mkDataBlock 7 [30, 0, 0, 65, 0, 0, 0, 0]) [] []
    [30, 0, 0, 65, 0, 0, 0, 0] rfl (by decide) (by decide) (by decide)
    (by decide)

/-! ### Claim C10: the payload guard byte -/

/-- C10 (counterexample): for a Data block with declared length 0 the
allocation succeeds (a 1-byte zero buffer), but the machine still enters
`BS_NEED_DATA` and the first payload byte is written at index `0 = length`,
overwriting the guard byte — payload writes are not confined to indices
`0 … length-1` when `length = 0`. -/
theorem C10_counterexample :
    (driveTopBytes [0x3C, 0x01, 0x00, 0x09] ⟨[], some freshBlock⟩).map
        (fun s => s.cb.map (fun b => (b.b_state, b.b_length, b.b_data))) =
      some (some (BState.needData, 0, some [9])) := by
  decide

/-- C10 (amended, declared length ≥ 1): the payload buffer is allocated
with `length + 1` zero bytes; decoding the frame writes only indices
`0 … length-1`, so the completed block's buffer is the payload followed by
a zero guard byte at index `length`. -/
theorem C10_guard_byte (p : List Nat) (hp : ∀ b ∈ p, b < 256) (hne : p ≠ [])
    (hlen : p.length < 256) :
    driveTopBytes [0x3C, 0x01, p.length] ⟨[], some freshBlock⟩ =
      some ⟨[], some { freshBlock with
        b_state := .needData, b_type := 1, b_length := p.length,
        b_cksum := (1 + p.length) % 256,
        b_data := some (List.replicate (p.length + 1) 0),
        b_byte := 0, b_nbit := 1 }⟩ ∧
    driveTopBytes (frameOf p) ⟨[], some freshBlock⟩ =
      some ⟨[finishData freshBlock p], none⟩ ∧
    (finishData freshBlock p).b_data = some (p ++ [0]) ∧
    ((finishData freshBlock p).b_data.getD []).length = p.length + 1 ∧
    ((finishData freshBlock p).b_data.getD []).getD p.length 99 = 0 := by
  refine ⟨?_, drive_frame_data p hp hne hlen [] freshBlock rfl rfl rfl,
          rfl, by simp [finishData], ?_⟩
  · rw [driveTopBytes_cons, drive_sync [] freshBlock rfl rfl]
    simp only
    rw [driveTopBytes_cons, drive_blocktype_data [] _ (by simp) (by simp)
        (by simp)]
    simp only
    rw [driveTopBytes_cons, drive_length_data p.length hlen [] _ (by simp)
        (by simp) (by simp) (by simp)]
    simp only [driveTopBytes, List.flatMap_nil, driveTopBits]
  · simp [finishData, List.getD_append_right]

/-- Witness for the amended C10 at payload `[0xAB]`, via the theorem. -/
theorem C10_guard_byte_witness :
    driveTopBytes (frameOf [0xAB]) ⟨[], some freshBlock⟩ =
      some ⟨[finishData freshBlock [0xAB]], none⟩ ∧
    ((finishData freshBlock [0xAB]).b_data.getD []).getD 1 99 = 0 :=
  ⟨(C10_guard_byte [0xAB] (by decide) (by decide) (by decide)).2.1,
   (C10_guard_byte [0xAB] (by decide) (by decide) (by decide)).2.2.2.2⟩

/-! ### Claim C2: checksum enforcement -/

/-- C2: in `BS_NEED_CKSUM` with a full byte pending, a byte different from
the accumulated checksum makes `process_bit` fail — fatal for the whole
run, never resynchronised — while a matching byte moves the machine to
`BS_NEED_LEADBYTE`; and for a Data frame the accumulated checksum at that
point is exactly the mod-256 sum of the block-type byte (`0x01`), the
length byte and all payload bytes. -/
theorem C2_checksum (p : List Nat) (c : Nat) (hp : ∀ b ∈ p, b < 256)
    (hne : p ≠ []) (hlen : p.length < 256) (hc : c < 256) :
    (∀ cb : Block, cb.b_state = .needCksum → cb.b_nbit = 8 →
      (cb.b_byte ≠ cb.b_cksum → process_bit cb = none) ∧
      (cb.b_byte = cb.b_cksum →
        process_bit cb =
          some { cb with b_state := .needLeadbyte,
                         b_byte := 0, b_nbit := 1 })) ∧
    driveTopBytes (0x3C :: 0x01 :: p.length :: p) ⟨[], some freshBlock⟩ =
      some ⟨[], some (preCksum freshBlock p)⟩ ∧
    (preCksum freshBlock p).b_state = .needCksum ∧
    (preCksum freshBlock p).b_cksum = (1 + p.length + p.sum) % 256 ∧
    (c ≠ (1 + p.length + p.sum) % 256 →
      driveTopBytes ((0x3C :: 0x01 :: p.length :: p) ++ [c])
        ⟨[], some freshBlock⟩ = none) ∧
    (c = (1 + p.length + p.sum) % 256 →
      driveTopBytes ((0x3C :: 0x01 :: p.length :: p) ++ [c])
        ⟨[], some freshBlock⟩ =
      some ⟨[], some { preCksum freshBlock p with
                       b_state := .needLeadbyte }⟩) := by
  refine ⟨?_, drive_preCksum p hp hne hlen [] freshBlock rfl rfl rfl,
          rfl, rfl, ?_, ?_⟩
  · intro cb hst hnb
    obtain ⟨st, ty, len, ck, dat, pn, ft, af, gf, ms, ml, bb, nb, di, pi, si,
      li⟩ := cb
    simp only at hst hnb
    subst hst hnb
    constructor
    · intro hne2
      simp only at hne2
      simp [process_bit, hne2]
    · intro heq
      simp only at heq
      simp [process_bit, heq]
  · intro hcne
    rw [driveTopBytes_append,
        drive_preCksum p hp hne hlen [] freshBlock rfl rfl rfl]
    simp only
    rw [driveTopBytes_cons,
        drive_cksum c hc [] (preCksum freshBlock p) (by simp [preCksum])
          (by simp [preCksum]) (by simp [preCksum])]
    rw [if_neg (by simpa [preCksum] using hcne)]
  · intro hceq
    rw [driveTopBytes_append,
        drive_preCksum p hp hne hlen [] freshBlock rfl rfl rfl]
    simp only
    rw [driveTopBytes_cons,
        drive_cksum c hc [] (preCksum freshBlock p) (by simp [preCksum])
          (by simp [preCksum]) (by simp [preCksum])]
    rw [if_pos (by simpa [preCksum] using hceq)]
    simp [driveTopBytes, driveTopBits, preCksum]

/-- Witness for C2 at payload `[0xAA]` (checksum `0xAC`): the wrong byte
`0x11` aborts the run, the right byte proceeds to `BS_NEED_LEADBYTE`. -/
theorem C2_checksum_witness :
    driveTopBytes [0x3C, 0x01, 1, 0xAA, 0x11] ⟨[], some freshBlock⟩ = none ∧
    driveTopBytes [0x3C, 0x01, 1, 0xAA, 0xAC] ⟨[], some freshBlock⟩ =
      some ⟨[], some { preCksum freshBlock [0xAA] with
                       b_state := BState.needLeadbyte }⟩ :=
  ⟨(C2_checksum [0xAA] 0x11 (by decide) (by decide) (by decide)
      (by decide)).2.2.2.2.1 (by decide),
   (C2_checksum [0xAA] 0xAC (by decide) (by decide) (by decide)
      (by decide)).2.2.2.2.2 (by decide)⟩

/-! ### Claim C7: resynchronization around a bad block-type byte -/

theorem driveTopBytes_alloc (v : Nat) (bs : List Nat) (comp : List Block) :
    driveTopBytes (v :: bs) ⟨comp, none⟩ =
      driveTopBytes (v :: bs) ⟨comp, some freshBlock⟩ := rfl

/-- A whole Data frame starting with no current block: the first sample of
the frame allocates a fresh one. -/
theorem drive_frame_data_alloc (p : List Nat) (hp : ∀ b ∈ p, b < 256)
    (hne : p ≠ []) (hlen : p.length < 256) (comp : List Block) :
    driveTopBytes (frameOf p) ⟨comp, none⟩ =
      some ⟨comp ++ [finishData freshBlock p], none⟩ := by
  have halloc : driveTopBytes (frameOf p) ⟨comp, none⟩ =
      driveTopBytes (frameOf p) ⟨comp, some freshBlock⟩ := rfl
  rw [halloc, drive_frame_data p hp hne hlen comp freshBlock rfl rfl rfl]

/-- C7: around two valid Data frames, inserting a spurious `0x3C` followed
by a byte `x` that fails block-type validation leaves both frames decoding
to exactly the same completed blocks; after the spurious bytes the machine
is back in `BS_NEED_SYNCBYTE` and the final chain is identical to the run
without the insertion. -/
theorem C7_resync (p1 p2 : List Nat) (x : Nat)
    (hp1 : ∀ b ∈ p1, b < 256) (hne1 : p1 ≠ []) (hlen1 : p1.length < 256)
    (hp2 : ∀ b ∈ p2, b < 256) (hne2 : p2 ≠ []) (hlen2 : p2.length < 256)
    (hx : x < 256) (hx0 : x ≠ 0x00) (hx1 : x ≠ 0x01) (hxF : x ≠ 0xFF) :
    driveTopBytes (frameOf p1 ++ frameOf p2) ⟨[], none⟩ =
      some ⟨[finishData freshBlock p1, finishData freshBlock p2], none⟩ ∧
    driveTopBytes (frameOf p1 ++ [0x3C, x]) ⟨[], none⟩ =
      some ⟨[finishData freshBlock p1],
            some { freshBlock with b_nbit := 1 }⟩ ∧
    ({ freshBlock with b_nbit := 1 } : Block).b_state = .needSyncbyte ∧
    driveTopBytes (frameOf p1 ++ ([0x3C, x] ++ frameOf p2)) ⟨[], none⟩ =
      some ⟨[finishData freshBlock p1, finishData freshBlock p2], none⟩ := by
  have hseg : driveTopBytes [0x3C, x] ⟨[finishData freshBlock p1], none⟩ =
      some ⟨[finishData freshBlock p1],
            some { freshBlock with b_nbit := 1 }⟩ := by
    rw [driveTopBytes_alloc, driveTopBytes_cons,
        drive_sync _ freshBlock rfl rfl]
    simp only
    rw [driveTopBytes_cons,
        drive_blocktype_bad x hx hx0 hx1 hxF _ _ (by simp) (by simp)
          (by simp)]
    simp [driveTopBytes, driveTopBits, freshBlock]
  refine ⟨?_, ?_, rfl, ?_⟩
  · rw [driveTopBytes_append,
        drive_frame_data_alloc p1 hp1 hne1 hlen1 []]
    simp only [List.nil_append]
    rw [drive_frame_data_alloc p2 hp2 hne2 hlen2 [finishData freshBlock p1]]
    simp
  · rw [driveTopBytes_append,
        drive_frame_data_alloc p1 hp1 hne1 hlen1 []]
    simp only [List.nil_append]
    exact hseg
  · rw [driveTopBytes_append,
        drive_frame_data_alloc p1 hp1 hne1 hlen1 []]
    simp only [List.nil_append]
    rw [driveTopBytes_append, hseg]
    simp only
    rw [drive_frame_data p2 hp2 hne2 hlen2 [finishData freshBlock p1]
        { freshBlock with b_nbit := 1 } rfl rfl rfl]
    simp [finishData]

/-- Witness for C7 at two one-byte payloads and spurious type byte 0x42. -/
theorem C7_resync_witness :
    driveTopBytes (frameOf [0xAA] ++ ([0x3C, 0x42] ++ frameOf [0xBB]))
        ⟨[], none⟩ =
      some ⟨[finishData freshBlock [0xAA], finishData freshBlock [0xBB]],
            none⟩ :=
  (C7_resync [0xAA] [0xBB] 0x42 (by decide) (by decide) (by decide)
    (by decide) (by decide) (by decide) (by decide) (by decide) (by decide)
    (by decide)).2.2.2

/-! ### Claim C9: falling zero crossings and the first crossing of a run -/

theorem ensure_idem (s : MState) : ensure (ensure s) = ensure s := by
  obtain ⟨blocks, cb⟩ := s
  cases cb <;> rfl

theorem runFrom_append (ol oh zl zh : Nat) (l1 l2 : List (Int × Int))
    (st : LoopSt) :
    runFrom ol oh zl zh st (l1 ++ l2) =
      match runFrom ol oh zl zh st l1 with
      | none => none
      | some st2 => runFrom ol oh zl zh st2 l2 := by
  induction l1 generalizing st with
  | nil => simp [runFrom]
  | cons a rest ih =>
      simp only [List.cons_append, runFrom]
      cases mainStep ol oh zl zh a.1 a.2 st with
      | none => rfl
      | some st2 => exact ih st2

/-- A non-crossing sample pair (two positive samples): allocate if needed
and advance the counter. -/
theorem mainStep_calm (ol oh zl zh : Nat) (st : LoopSt) :
    mainStep ol oh zl zh 1 1 st = some ⟨ensure st.ms, st.count + 1⟩ := by
  unfold mainStep
  norm_num [fallingCross]

/-- A run of `k ≥ 1` non-crossing pairs: the counter advances `k` times and
a block is allocated. -/
theorem runFrom_ones (k : Nat) (hk : 1 ≤ k) (ol oh zl zh : Nat) (st : LoopSt) :
    runFrom ol oh zl zh st (List.replicate k ((1 : Int), (1 : Int))) =
      some ⟨ensure st.ms, st.count + k⟩ := by
  induction k generalizing st with
  | zero => omega
  | succ n ih =>
      rw [List.replicate_succ]
      simp only [runFrom, mainStep_calm]
      by_cases hn : 1 ≤ n
      · rw [ih hn ⟨ensure st.ms, st.count + 1⟩]
        have harith : st.count + 1 + n = st.count + (n + 1) := by omega
        simp [ensure_idem, harith]
      · have hn0 : n = 0 := by omega
        subst hn0
        simp [runFrom]

theorem samplePairs_cons2 (a b : Int) (t : List Int) :
    samplePairs (a :: b :: t) = (a, b) :: samplePairs (b :: t) := rfl

/-- The sample pairs of `k + 1` non-negative samples followed by one
negative sample: `k` calm pairs and one falling crossing. -/
theorem pairs_replicate (k : Nat) :
    samplePairs (List.replicate (k + 1) (1 : Int) ++ [-1]) =
      List.replicate k ((1 : Int), (1 : Int)) ++ [((1 : Int), (-1 : Int))] := by
  induction k with
  | zero => rfl
  | succ n ih =>
      have h2 : List.replicate (n + 1) (1 : Int) ++ [-1] =
          1 :: (List.replicate n 1 ++ [-1]) := by
        simp [List.replicate_succ]
      have h : List.replicate (n + 1 + 1) (1 : Int) ++ [-1] =
          1 :: (List.replicate (n + 1) 1 ++ [-1]) := by
        simp [List.replicate_succ]
      rw [h]
      conv_lhs => rw [h2]
      rw [samplePairs_cons2, ← h2, ih]
      simp [List.replicate_succ]

/-- C9 (amended): a falling zero-crossing happens exactly when the current
sample is negative and the previous one non-negative; but the FIRST
crossing of a run does emit a classification like any other — the counter
value it classifies is the sample count since the start of the run (`k`
for a run of `k + 1` non-negative samples followed by a negative one),
there is no skipped first measurement. -/
theorem C9_first_crossing (k : Nat) (hk : 1 ≤ k) :
    (∀ prev cur : Int, fallingCross prev cur = true ↔ cur < 0 ∧ 0 ≤ prev) ∧
    runMain (List.replicate (k + 1) 1 ++ [-1]) =
      (crossBody (classify o_one_low O_one_high z_zero_low Z_zero_high k)
          ⟨[], some freshBlock⟩).map (fun s => (⟨s, 1⟩ : LoopSt)) := by
  constructor
  · intro prev cur
    simp [fallingCross]
  · rw [runMain, pairs_replicate, runFrom_append,
        runFrom_ones k hk _ _ _ _ ⟨⟨[], none⟩, 0⟩]
    simp only [runFrom, mainStep]
    norm_num [fallingCross, ensure]
    cases hcb : crossBody (classify o_one_low O_one_high z_zero_low
        Z_zero_high k) ⟨[], some freshBlock⟩ with
    | none => simp [runFrom]
    | some s2 => simp [runFrom]

/-- C9 (counterexample): on a run of 25 non-negative samples followed by
one negative sample, the first falling crossing classifies counter value
24 as a One and shifts a bit into the byte register (`b_byte = 0x80`),
while the claim says the first crossing emits no classification (which
would leave `b_byte = 0`). -/
theorem C9_counterexample :
    (runMain (List.replicate 25 1 ++ [-1])).map
        (fun st => st.ms.cb.map (fun b => b.b_byte)) = some (some 0x80) ∧
    (0x80 : Nat) ≠ 0 := by
  decide

/-- Witness for the amended C9 at `k = 24`, via the theorem. -/
theorem C9_first_crossing_witness :
    runMain (List.replicate 25 1 ++ [-1]) =
      some ⟨⟨[], some { freshBlock with b_byte := 0x80 }⟩, 1⟩ :=
  ((C9_first_crossing 24 (by decide)).2).trans (by decide)
